import Mathlib

/-!
# Verification of the `mine-cli` core against its specification

Shallow embedding of the two core source files of the repository:

* `src/ore-cli/src/mine.rs` — the parallel nonce-search engine
  (`find_next_hash_par`), modelled as an interleaving semantics over
  explicit worker states, a shared found-flag and a mutex-guarded
  result slot.  The Keccak-256 hash used by `solana_sdk::keccak::hashv`
  is implemented executably over byte lists.
* `src/ore-cli/src/send_and_confirm.rs` — the submission pipeline
  (`send_and_confirm`, `simulate_transaction`, `submit_transaction`,
  `confirm_transaction`), modelled over explicit response streams for
  the RPC collaborators, with an event trace recording network calls
  and backoff sleeps.

Machine integers are modelled as `Nat` with explicit reduction
`% 2^w` exactly where the Rust code can wrap or truncate.
-/

namespace MineCli

/-! ## Keccak-256 (the hash behind `solana_sdk::keccak::hashv`)

Keccak-256 with the original `0x01` multi-rate padding (as used by
Solana's `keccak` module), over lists of bytes (`Nat`s below 256).
Lanes are 64-bit words stored as `Nat`s below `2^64` in a list of 25,
indexed by `x + 5 * y`.
-/

def M64 : Nat := 18446744073709551616

def U64MAX : Nat := 18446744073709551615

/-- Rotate a 64-bit lane left by `n` bits. -/
def rotl64 (a n : Nat) : Nat :=
  (((a % M64) <<< n) % M64) ||| ((a % M64) >>> (64 - n))

/-- Keccak round constants, four per row. -/
def keccakRC : List Nat :=
  ([[0x0000000000000001, 0x0000000000008082],
    [0x800000000000808A, 0x8000000080008000],
    [0x000000000000808B, 0x0000000080000001],
    [0x8000000080008081, 0x8000000000008009],
    [0x000000000000008A, 0x0000000000000088],
    [0x0000000080008009, 0x000000008000000A],
    [0x000000008000808B, 0x800000000000008B],
    [0x8000000000008089, 0x8000000000008003],
    [0x8000000000008002, 0x8000000000000080],
    [0x000000000000800A, 0x800000008000000A],
    [0x8000000080008081, 0x8000000000008080],
    [0x0000000080000001, 0x8000000080008008]]).flatten

/-- Rotation offsets, indexed by `x + 5 * y`, one row per `y`. -/
def rotOff : List Nat :=
  ([[0, 1, 62, 28, 27],
    [36, 44, 6, 55, 20],
    [3, 10, 43, 25, 39],
    [41, 45, 15, 21, 8],
    [18, 2, 61, 56, 14]]).flatten

def thetaStep (A : List Nat) : List Nat :=
  let C := List.ofFn (fun x : Fin 5 =>
    A.getD x.val 0 ^^^ A.getD (x.val + 5) 0 ^^^ A.getD (x.val + 10) 0 ^^^
      A.getD (x.val + 15) 0 ^^^ A.getD (x.val + 20) 0)
  let D := List.ofFn (fun x : Fin 5 =>
    C.getD ((x.val + 4) % 5) 0 ^^^ rotl64 (C.getD ((x.val + 1) % 5) 0) 1)
  List.ofFn (fun i : Fin 25 => A.getD i.val 0 ^^^ D.getD (i.val % 5) 0)

def rhoPiStep (A : List Nat) : List Nat :=
  List.ofFn (fun j : Fin 25 =>
    let xp := j.val % 5
    let yp := j.val / 5
    let x := (3 * yp + xp) % 5
    let y := xp
    rotl64 (A.getD (x + 5 * y) 0) (rotOff.getD (x + 5 * y) 0))

def chiStep (B : List Nat) : List Nat :=
  List.ofFn (fun j : Fin 25 =>
    let x := j.val % 5
    let y := j.val / 5
    B.getD (x + 5 * y) 0 ^^^
      ((B.getD ((x + 1) % 5 + 5 * y) 0 ^^^ U64MAX) &&& B.getD ((x + 2) % 5 + 5 * y) 0))

def keccakRound (A : List Nat) (rc : Nat) : List Nat :=
  let A := chiStep (rhoPiStep (thetaStep A))
  A.set 0 (A.getD 0 0 ^^^ rc)

def keccakF (A : List Nat) : List Nat :=
  keccakRC.foldl keccakRound A

/-- Read a little-endian 64-bit lane from a byte list. -/
def leLane (bs : List Nat) : Nat :=
  bs.foldr (fun b acc => b + 256 * acc) 0

/-- Write a 64-bit lane as 8 little-endian bytes. -/
def laneToLeBytes (n : Nat) : List Nat :=
  List.ofFn (fun i : Fin 8 => n / 256 ^ i.val % 256)

/-- XOR one 136-byte rate block into the state and permute. -/
def absorbBlock (A : List Nat) (block : List Nat) : List Nat :=
  keccakF (List.ofFn (fun i : Fin 25 =>
    A.getD i.val 0 ^^^ (if i.val < 17 then leLane ((block.drop (8 * i.val)).take 8) else 0)))

/-- Original Keccak `pad10*1` padding with domain byte `0x01`, rate 136. -/
def keccakPad (msg : List Nat) : List Nat :=
  let padLen := 136 - msg.length % 136
  if padLen == 1 then msg ++ [0x81]
  else msg ++ [0x01] ++ List.replicate (padLen - 2) 0 ++ [0x80]

def absorbBlocks : Nat → List Nat → List Nat → List Nat
  | 0, A, _ => A
  | k + 1, A, msg => absorbBlocks k (absorbBlock A (msg.take 136)) (msg.drop 136)

/-- Keccak-256 of a byte list. -/
def keccak256 (msg : List Nat) : List Nat :=
  let padded := keccakPad msg
  let A := absorbBlocks (padded.length / 136) (List.replicate 25 0) padded
  (List.ofFn (fun i : Fin 4 => laneToLeBytes (A.getD i.val 0))).flatten

/-- `solana_sdk::keccak::hashv`: Keccak-256 of the concatenation of the slices. -/
def hashv (slices : List (List Nat)) : List Nat :=
  keccak256 slices.flatten

/-! ## Byte-level comparison and encodings

`solana_sdk::keccak::Hash` derives `PartialOrd` on `[u8; 32]`, which is
lexicographic byte comparison; `next_hash.le(&difficulty)` in `mine.rs`
is therefore the lexicographic `≤` below.  `nonce.to_le_bytes()` is
`leBytes8`.
-/

/-- Lexicographic `≤` on byte lists (Rust array/slice `PartialOrd`). -/
def lexLe : List Nat → List Nat → Bool
  | [], [] => true
  | [], _ :: _ => true
  | _ :: _, [] => false
  | a :: as, b :: bs => if a < b then true else if b < a then false else lexLe as bs

/-- Value of a byte list read as a big-endian unsigned integer. -/
def beNat (bs : List Nat) : Nat :=
  bs.foldl (fun acc b => acc * 256 + b) 0

/-- `u64::to_le_bytes`. -/
def leBytes8 (n : Nat) : List Nat :=
  List.ofFn (fun i : Fin 8 => n / 256 ^ i.val % 256)

/-! ## The parallel search engine (`find_next_hash_par`, `mine.rs` lines 97–160)

The Rust function spawns `threads` worker threads sharing an
`AtomicBool` found-flag and a `Mutex<(KeccakHash, u64)>` result slot
initialised to `(Hash::new_from_array([0; 32]), 0)`.  Worker `i` starts
at nonce `u64::MAX.saturating_div(threads).saturating_mul(i)` and loops:

* compute `next_hash = hashv(challenge, pubkey, nonce.to_le_bytes())`;
* if `nonce % 10_000 == 0` and the found-flag is set, terminate;
* if `next_hash.le(&difficulty)`, set the found-flag, then lock the
  slot, overwrite it with `(next_hash, nonce)` and terminate;
* otherwise `nonce += 1` (wrapping in release builds).

The caller joins every thread and then returns the slot's content.

We model this as an interleaving semantics: a worker is `running` (in
its loop, about to run one iteration), `pending` (found-flag already
set, waiting to acquire the slot lock), or `done`.  A schedule is the
list of worker indices picked by the scheduler; each scheduled step is
one atomic action of that worker (one loop iteration, or one
lock-write-unlock).  The hash is a parameter `h` standing for
`hashv` on the concatenated input, instantiated with `keccak256` for
concrete runs.
-/

/-- `u64::saturating_div` (the divisor is nonzero whenever evaluated). -/
def saturating_div (a b : Nat) : Nat := a / b

/-- `u64::saturating_mul`. -/
def saturating_mul (a b : Nat) : Nat := min (a * b) U64MAX

/-- Start nonce of worker `i`:
`u64::MAX.saturating_div(threads).saturating_mul(i)`. -/
def startNonce (threads i : Nat) : Nat :=
  saturating_mul (saturating_div U64MAX threads) i

/-- The byte string hashed for a nonce:
`challenge ∥ identity ∥ nonce.to_le_bytes()` (the three `hashv` slices). -/
def hashInput (challenge ident : List Nat) (nonce : Nat) : List Nat :=
  challenge ++ ident ++ leBytes8 nonce

/-- Local state of one worker thread. -/
inductive WStatus where
  | running (nonce : Nat)
  | pending (digest : List Nat) (nonce : Nat)
  | done
deriving DecidableEq

/-- Shared state plus all worker states. -/
structure SearchState where
  found : Bool
  slot : List Nat × Nat
  workers : List WStatus
deriving DecidableEq

/-- Initial state: flag clear, slot `(all-zero digest, 0)`, worker `i`
running from `startNonce threads i`. -/
def initState (threads : Nat) : SearchState :=
  { found := false
    slot := (List.replicate 32 0, 0)
    workers := (List.range threads).map (fun i => .running (startNonce threads i)) }

/-- One atomic action of a worker: returns its new status, the new
found-flag, and an optional write to the result slot. -/
def wstep (h : List Nat → List Nat) (challenge ident difficulty : List Nat)
    (found : Bool) : WStatus → WStatus × Bool × Option (List Nat × Nat)
  | .running nonce =>
    let digest := h (hashInput challenge ident nonce)
    if nonce % 10000 == 0 && found then (.done, found, none)
    else if lexLe digest difficulty then (.pending digest nonce, true, none)
    else (.running ((nonce + 1) % M64), found, none)
  | .pending digest nonce => (.done, found, some (digest, nonce))
  | .done => (.done, found, none)

/-- The slot write performed by scheduling worker `i` now (if any). -/
def stepWrite (h : List Nat → List Nat) (challenge ident difficulty : List Nat)
    (s : SearchState) (i : Nat) : Option (List Nat × Nat) :=
  match s.workers.get? i with
  | some w => (wstep h challenge ident difficulty s.found w).2.2
  | none => none

/-- Schedule one atomic action of worker `i`. -/
def stepWorker (h : List Nat → List Nat) (challenge ident difficulty : List Nat)
    (s : SearchState) (i : Nat) : SearchState :=
  match s.workers.get? i with
  | some w =>
    let r := wstep h challenge ident difficulty s.found w
    { found := r.2.1
      slot := (r.2.2).getD s.slot
      workers := s.workers.set i r.1 }
  | none => s

/-- Run a whole schedule. -/
def runSched (h : List Nat → List Nat) (challenge ident difficulty : List Nat)
    (s : SearchState) : List Nat → SearchState
  | [] => s
  | i :: rest => runSched h challenge ident difficulty
      (stepWorker h challenge ident difficulty s i) rest

/-- The slot writes committed along a schedule, in commit order. -/
def writesOf (h : List Nat → List Nat) (challenge ident difficulty : List Nat)
    (s : SearchState) : List Nat → List (List Nat × Nat)
  | [] => []
  | i :: rest =>
    (stepWrite h challenge ident difficulty s i).toList ++
      writesOf h challenge ident difficulty
        (stepWorker h challenge ident difficulty s i) rest

def isDoneW : WStatus → Bool
  | .done => true
  | _ => false

/-- All spawned workers have terminated (the join-all has completed). -/
def allDone (s : SearchState) : Bool := s.workers.all isDoneW

/-- `find_next_hash_par`: the call returns (the slot's content) only
once every worker has terminated; a schedule that leaves a worker alive
corresponds to the caller still blocked in `join`. -/
def find_next_hash_par (h : List Nat → List Nat)
    (challenge ident difficulty : List Nat) (threads : Nat)
    (sched : List Nat) : Option (List Nat × Nat) :=
  let s := runSched h challenge ident difficulty (initState threads) sched
  if allDone s then some s.slot else none

/-! ## The submission pipeline (`send_and_confirm.rs`)

Constants from the source: `RPC_RETRIES = 0`, `SIMULATION_RETRIES = 4`,
`GATEWAY_RETRIES = 4`, `CONFIRM_RETRIES = 4`.

Network collaborators are modelled as response streams: a function
`Nat → _Response` giving the responses of the successive RPC calls of a
stage.  Recursing on the tail shifts the stream (`fun i => resp (i+1)`).
Each modelled stage also returns the chronological list of observable
events it performs: RPC calls and the 2-second backoff sleeps.

Notes on the source, which does not compile as Rust:
* `send_and_confirm` passes the undeclared `sim_attempts` to
  `simulate_transaction`; we model the counter as starting at 0.
* `simulate_transaction` is defined twice, identically (lines 72–114
  and 116–158); one copy is embedded.
* the `submit_transaction` call site passes extra undeclared arguments
  (`sigs`, `attempts`); the embedded function follows the definition at
  lines 160–185, whose `attempts` counter is local and starts at 0.
* the balance and blockhash fetches (`?`) are modelled as succeeding;
  the balance value is part of the environment.
-/

def SIMULATION_RETRIES : Nat := 4
def GATEWAY_RETRIES : Nat := 4
def CONFIRM_RETRIES : Nat := 4

/-- Observable pipeline events, in chronological order. -/
inductive Ev where
  | balanceCall
  | blockhashCall
  | simCall
  | sendCall
  | statusCall
  | sleep2
deriving DecidableEq

/-- Terminal errors of the pipeline (`ClientErrorKind` payloads). -/
inductive ClientErr where
  | insufficientFunds
  | simulationFailed
  | sendFailed
  | confirmTimeout
  | transport
deriving DecidableEq

/-- An instruction of the transaction message. -/
inductive Ix where
  | cuBudget (limit : Nat)
  | other (tag : Nat)
deriving DecidableEq

/-- Response of one `simulate_transaction_with_config` call:
`ok err unitsConsumed` mirrors `sim_res.value.err` and
`sim_res.value.units_consumed`; `transportErr` is an `Err(_)` transport
failure. -/
inductive SimResponse where
  | ok (err : Option Unit) (unitsConsumed : Option Nat)
  | transportErr
deriving DecidableEq

/-- Outcome of the `simulate_transaction` loop: `okTx` returns `Ok(())`
with the (possibly modified) instruction list, `errSim` the
"Simulation repeatedly failed" error; `outOfFuel` marks a run whose
modelling fuel was exhausted with the loop still going. -/
inductive SimOutcome where
  | okTx (tx : List Ix)
  | errSim
  | outOfFuel
deriving DecidableEq

/-- `simulate_transaction` (lines 72–114): `while sim_attempts <
SIMULATION_RETRIES` issue a simulation call and dispatch on the
response.  A success carrying `units_consumed` prepends
`set_compute_unit_limit(units_consumed as u32 + 1000)` and returns; a
success without it loops *without touching the counter*; a reported
execution error increments the counter; a transport error increments it
and, when the bound is reached, returns the failure.  The second
component of the result counts the simulation calls issued.  `fuel`
bounds the modelled iterations (the loop itself is not structurally
terminating). -/
def simLoop : (Nat → SimResponse) → Nat → Nat → List Ix → SimOutcome × Nat
  | _, 0, sim_attempts, tx =>
    if sim_attempts < SIMULATION_RETRIES then (.outOfFuel, 0) else (.okTx tx, 0)
  | resp, fuel + 1, sim_attempts, tx =>
    if sim_attempts < SIMULATION_RETRIES then
      match resp 0 with
      | .ok none (some u) =>
        (.okTx (Ix.cuBudget ((u % 2 ^ 32 + 1000) % 2 ^ 32) :: tx), 1)
      | .ok none none =>
        let r := simLoop (fun i => resp (i + 1)) fuel sim_attempts tx
        (r.1, r.2 + 1)
      | .ok (some _) _ =>
        let r := simLoop (fun i => resp (i + 1)) fuel (sim_attempts + 1) tx
        (r.1, r.2 + 1)
      | .transportErr =>
        if SIMULATION_RETRIES ≤ sim_attempts + 1 then (.errSim, 1)
        else
          let r := simLoop (fun i => resp (i + 1)) fuel (sim_attempts + 1) tx
          (r.1, r.2 + 1)
    else (.okTx tx, 0)

/-- Response of one `get_signature_statuses` call: `transportErr` is an
`Err(_)` (propagated by `?`); `ok st` is `Ok` with
`status.value.first().flatten()` being `st`, whose inner value is the
`confirmation_status` field. -/
inductive ConfStatus where
  | processed
  | confirmed
  | finalized
deriving DecidableEq

inductive StatusResponse where
  | ok (st : Option (Option ConfStatus))
  | transportErr
deriving DecidableEq

/-- `confirm_transaction` (lines 187–213): `while attempts <
CONFIRM_RETRIES`, sleep 2 s, query the signature status (`?` propagates
a transport error), return the signature on `Confirmed`/`Finalized`,
and otherwise increment `attempts`.  Exhaustion yields the
"Transaction confirmation failed after repeated attempts" error.
Structured as recursion on the remaining iterations
`CONFIRM_RETRIES - attempts`. -/
def confirmAux (resp : Nat → StatusResponse) (sig : Nat) :
    Nat → Except ClientErr Nat × List Ev
  | 0 => (.error .confirmTimeout, [])
  | remaining + 1 =>
    match resp 0 with
    | .transportErr => (.error .transport, [.sleep2, .statusCall])
    | .ok st =>
      match st with
      | some (some .confirmed) => (.ok sig, [.sleep2, .statusCall])
      | some (some .finalized) => (.ok sig, [.sleep2, .statusCall])
      | _ =>
        let r := confirmAux (fun i => resp (i + 1)) sig remaining
        (r.1, .sleep2 :: .statusCall :: r.2)

def confirm_transaction (resp : Nat → StatusResponse) (sig : Nat) :
    Except ClientErr Nat × List Ev :=
  confirmAux resp sig CONFIRM_RETRIES

/-- Response of one `send_transaction_with_config` call. -/
inductive SendResponse where
  | ok (sig : Nat)
  | transportErr
deriving DecidableEq

/-- `submit_transaction` (lines 160–185): `while attempts <
GATEWAY_RETRIES`, send; on success return the signature (or, unless
`skip_confirm`, the result of `confirm_transaction`); on a transport
error increment `attempts`, sleep 2 s and retry.  Exhaustion yields the
"Exceeded maximum retries for sending transaction" error. -/
def submitAux (statusResp : Nat → StatusResponse) (skip_confirm : Bool)
    (sendResp : Nat → SendResponse) :
    Nat → Except ClientErr Nat × List Ev
  | 0 => (.error .sendFailed, [])
  | remaining + 1 =>
    match sendResp 0 with
    | .ok sig =>
      if skip_confirm then (.ok sig, [.sendCall])
      else
        let r := confirm_transaction statusResp sig
        (r.1, .sendCall :: r.2)
    | .transportErr =>
      let r := submitAux statusResp skip_confirm (fun i => sendResp (i + 1)) remaining
      (r.1, .sendCall :: .sleep2 :: r.2)

def submit_transaction (sendResp : Nat → SendResponse)
    (statusResp : Nat → StatusResponse) (skip_confirm : Bool) :
    Except ClientErr Nat × List Ev :=
  submitAux statusResp skip_confirm sendResp GATEWAY_RETRIES

/-- The pipeline's collaborators: the reported signer balance and the
response streams of the three RPC kinds. -/
structure SacEnv where
  balance : Nat
  simResp : Nat → SimResponse
  sendResp : Nat → SendResponse
  statusResp : Nat → StatusResponse

/-- `send_and_confirm` (lines 28–69): fetch the balance and fail with
"Insufficient SOL balance" unless it is strictly positive; fetch the
latest blockhash; when `dynamic_cus` run `simulate_transaction`,
propagating its failure (`?`); finally run `submit_transaction`.
Returns `none` when the simulate loop exceeded the modelling fuel. -/
def send_and_confirm (env : SacEnv) (ixs : List Ix)
    (dynamic_cus skip_confirm : Bool) (fuel : Nat) :
    Option (Except ClientErr Nat × List Ev) :=
  if env.balance ≤ 0 then some (.error .insufficientFunds, [.balanceCall])
  else
    let pre : List Ev := [.balanceCall, .blockhashCall]
    if dynamic_cus then
      match simLoop env.simResp fuel 0 ixs with
      | (.outOfFuel, _) => none
      | (.errSim, calls) =>
        some (.error .simulationFailed, pre ++ List.replicate calls .simCall)
      | (.okTx _, calls) =>
        let r := submit_transaction env.sendResp env.statusResp skip_confirm
        some (r.1, pre ++ List.replicate calls .simCall ++ r.2)
    else
      let r := submit_transaction env.sendResp env.statusResp skip_confirm
      some (r.1, pre ++ r.2)

/-! ## Helper definitions and lemmas for the pipeline stages -/

/-- Events of `k` polling iterations: sleep 2 s, then one status query. -/
def pollEvs (k : Nat) : List Ev :=
  (List.replicate k [Ev.sleep2, Ev.statusCall]).flatten

/-- Events of `k` failed send iterations: one send, then sleep 2 s. -/
def sendEvs (k : Nat) : List Ev :=
  (List.replicate k [Ev.sendCall, Ev.sleep2]).flatten

/-- A status response that neither terminates polling nor errors:
status absent, present without a confirmation status, or a finality
level weaker than `Confirmed`. -/
def nonTerminal : StatusResponse → Bool
  | .ok none => true
  | .ok (some none) => true
  | .ok (some (some .processed)) => true
  | _ => false

/-- A status response reporting `Confirmed` or `Finalized`. -/
def isConfirmedStatus : StatusResponse → Bool
  | .ok (some (some .confirmed)) => true
  | .ok (some (some .finalized)) => true
  | _ => false

/-- A simulation response that the claim counts as a failed attempt: a
reported execution error or a transport error. -/
def isSimFailure : SimResponse → Bool
  | .ok (some _) _ => true
  | .transportErr => true
  | _ => false

/-- A simulation success that reports no units-consumed figure. -/
def isNoUnits : SimResponse → Bool
  | .ok none none => true
  | _ => false

lemma pollEvs_succ (k : Nat) :
    pollEvs (k + 1) = Ev.sleep2 :: Ev.statusCall :: pollEvs k := by
  simp [pollEvs, List.replicate_succ]

lemma sendEvs_succ (k : Nat) :
    sendEvs (k + 1) = Ev.sendCall :: Ev.sleep2 :: sendEvs k := by
  simp [sendEvs, List.replicate_succ]

lemma confirmAux_ok (sig : Nat) :
    ∀ (a r : Nat) (resp : Nat → StatusResponse), a < r →
      (∀ i, i < a → nonTerminal (resp i) = true) →
      isConfirmedStatus (resp a) = true →
      confirmAux resp sig r = (.ok sig, pollEvs (a + 1)) := by
  intro a
  induction a with
  | zero =>
    intro r resp hr hpre hsucc
    match r, hr with
    | r + 1, _ =>
      cases hc : resp 0 with
      | transportErr => rw [hc] at hsucc; simp [isConfirmedStatus] at hsucc
      | ok st =>
        rw [hc] at hsucc
        match st with
        | none => simp [isConfirmedStatus] at hsucc
        | some none => simp [isConfirmedStatus] at hsucc
        | some (some .processed) => simp [isConfirmedStatus] at hsucc
        | some (some .confirmed) =>
          simp [confirmAux, hc, pollEvs]
        | some (some .finalized) =>
          simp [confirmAux, hc, pollEvs]
  | succ a ih =>
    intro r resp hr hpre hsucc
    match r, hr with
    | r + 1, hr' =>
      have h0 := hpre 0 (Nat.succ_pos a)
      have hrec := ih r (fun i => resp (i + 1)) (Nat.lt_of_succ_lt_succ hr')
        (fun i hi => hpre (i + 1) (Nat.succ_lt_succ hi)) hsucc
      cases hc : resp 0 with
      | transportErr => rw [hc] at h0; simp [nonTerminal] at h0
      | ok st =>
        match st with
        | some (some .confirmed) => rw [hc] at h0; simp [nonTerminal] at h0
        | some (some .finalized) => rw [hc] at h0; simp [nonTerminal] at h0
        | none =>
          simp [confirmAux, hc, hrec, pollEvs_succ]
        | some none =>
          simp [confirmAux, hc, hrec, pollEvs_succ]
        | some (some .processed) =>
          simp [confirmAux, hc, hrec, pollEvs_succ]

lemma confirmAux_timeout (sig : Nat) :
    ∀ (r : Nat) (resp : Nat → StatusResponse),
      (∀ i, i < r → nonTerminal (resp i) = true) →
      confirmAux resp sig r = (.error .confirmTimeout, pollEvs r) := by
  intro r
  induction r with
  | zero => intro resp _; simp [confirmAux, pollEvs]
  | succ r ih =>
    intro resp hpre
    have h0 := hpre 0 (Nat.succ_pos r)
    have hrec := ih (fun i => resp (i + 1))
      (fun i hi => hpre (i + 1) (Nat.succ_lt_succ hi))
    cases hc : resp 0 with
    | transportErr => rw [hc] at h0; simp [nonTerminal] at h0
    | ok st =>
      match st with
      | some (some .confirmed) => rw [hc] at h0; simp [nonTerminal] at h0
      | some (some .finalized) => rw [hc] at h0; simp [nonTerminal] at h0
      | none => simp [confirmAux, hc, hrec, pollEvs_succ]
      | some none => simp [confirmAux, hc, hrec, pollEvs_succ]
      | some (some .processed) => simp [confirmAux, hc, hrec, pollEvs_succ]

lemma confirmAux_transport (sig : Nat) :
    ∀ (a r : Nat) (resp : Nat → StatusResponse), a < r →
      (∀ i, i < a → nonTerminal (resp i) = true) →
      resp a = .transportErr →
      confirmAux resp sig r = (.error .transport, pollEvs (a + 1)) := by
  intro a
  induction a with
  | zero =>
    intro r resp hr hpre herr
    match r, hr with
    | r + 1, _ => simp [confirmAux, herr, pollEvs]
  | succ a ih =>
    intro r resp hr hpre herr
    match r, hr with
    | r + 1, hr' =>
      have h0 := hpre 0 (Nat.succ_pos a)
      have hrec := ih r (fun i => resp (i + 1)) (Nat.lt_of_succ_lt_succ hr')
        (fun i hi => hpre (i + 1) (Nat.succ_lt_succ hi)) herr
      cases hc : resp 0 with
      | transportErr => rw [hc] at h0; simp [nonTerminal] at h0
      | ok st =>
        match st with
        | some (some .confirmed) => rw [hc] at h0; simp [nonTerminal] at h0
        | some (some .finalized) => rw [hc] at h0; simp [nonTerminal] at h0
        | none => simp [confirmAux, hc, hrec, pollEvs_succ]
        | some none => simp [confirmAux, hc, hrec, pollEvs_succ]
        | some (some .processed) => simp [confirmAux, hc, hrec, pollEvs_succ]

lemma submitAux_ok_skip (statusResp : Nat → StatusResponse) (s : Nat) :
    ∀ (k r : Nat) (resp : Nat → SendResponse), k < r →
      (∀ i, i < k → resp i = .transportErr) → resp k = .ok s →
      submitAux statusResp true resp r =
        (.ok s, sendEvs k ++ [Ev.sendCall]) := by
  intro k
  induction k with
  | zero =>
    intro r resp hr hpre hk
    match r, hr with
    | r + 1, _ => simp [submitAux, hk, sendEvs]
  | succ k ih =>
    intro r resp hr hpre hk
    match r, hr with
    | r + 1, hr2 =>
      have h0 := hpre 0 (Nat.succ_pos k)
      have hrec := ih r (fun i => resp (i + 1)) (Nat.lt_of_succ_lt_succ hr2)
        (fun i hi => hpre (i + 1) (Nat.succ_lt_succ hi)) hk
      simp [submitAux, h0, hrec, sendEvs_succ]

lemma submitAux_ok_confirm (statusResp : Nat → StatusResponse) (s : Nat) :
    ∀ (k r : Nat) (resp : Nat → SendResponse), k < r →
      (∀ i, i < k → resp i = .transportErr) → resp k = .ok s →
      submitAux statusResp false resp r =
        ((confirm_transaction statusResp s).1,
          sendEvs k ++ Ev.sendCall :: (confirm_transaction statusResp s).2) := by
  intro k
  induction k with
  | zero =>
    intro r resp hr hpre hk
    match r, hr with
    | r + 1, _ => simp [submitAux, hk, sendEvs]
  | succ k ih =>
    intro r resp hr hpre hk
    match r, hr with
    | r + 1, hr2 =>
      have h0 := hpre 0 (Nat.succ_pos k)
      have hrec := ih r (fun i => resp (i + 1)) (Nat.lt_of_succ_lt_succ hr2)
        (fun i hi => hpre (i + 1) (Nat.succ_lt_succ hi)) hk
      simp [submitAux, h0, hrec, sendEvs_succ]

lemma submitAux_allFail (statusResp : Nat → StatusResponse) (skip : Bool) :
    ∀ (r : Nat) (resp : Nat → SendResponse),
      (∀ i, i < r → resp i = .transportErr) →
      submitAux statusResp skip resp r = (.error .sendFailed, sendEvs r) := by
  intro r
  induction r with
  | zero => intro resp _; simp [submitAux, sendEvs]
  | succ r ih =>
    intro resp hpre
    have h0 := hpre 0 (Nat.succ_pos r)
    have hrec := ih (fun i => resp (i + 1))
      (fun i hi => hpre (i + 1) (Nat.succ_lt_succ hi))
    simp [submitAux, h0, hrec, sendEvs_succ]

lemma confirmAux_no_sendCall (sig : Nat) :
    ∀ (r : Nat) (resp : Nat → StatusResponse),
      List.count Ev.sendCall (confirmAux resp sig r).2 = 0 := by
  intro r
  induction r with
  | zero => intro resp; simp [confirmAux]
  | succ r ih =>
    intro resp
    cases hc : resp 0 with
    | transportErr => simp [confirmAux, hc]
    | ok st =>
      match st with
      | none => simp [confirmAux, hc, ih]
      | some none => simp [confirmAux, hc, ih]
      | some (some .processed) => simp [confirmAux, hc, ih]
      | some (some .confirmed) => simp [confirmAux, hc]
      | some (some .finalized) => simp [confirmAux, hc]

lemma confirmAux_statusCall_le (sig : Nat) :
    ∀ (r : Nat) (resp : Nat → StatusResponse),
      List.count Ev.statusCall (confirmAux resp sig r).2 ≤ r := by
  intro r
  induction r with
  | zero => intro resp; simp [confirmAux]
  | succ r ih =>
    intro resp
    cases hc : resp 0 with
    | transportErr => simp [confirmAux, hc]
    | ok st =>
      match st with
      | none =>
        have := ih (fun i => resp (i + 1))
        simp only [confirmAux, hc]
        simp [List.count_cons]
        omega
      | some none =>
        have := ih (fun i => resp (i + 1))
        simp only [confirmAux, hc]
        simp [List.count_cons]
        omega
      | some (some .processed) =>
        have := ih (fun i => resp (i + 1))
        simp only [confirmAux, hc]
        simp [List.count_cons]
        omega
      | some (some .confirmed) => simp [confirmAux, hc]
      | some (some .finalized) => simp [confirmAux, hc]

lemma submitAux_sendCall_le (statusResp : Nat → StatusResponse) (skip : Bool) :
    ∀ (r : Nat) (resp : Nat → SendResponse),
      List.count Ev.sendCall (submitAux statusResp skip resp r).2 ≤ r := by
  intro r
  induction r with
  | zero => intro resp; simp [submitAux]
  | succ r ih =>
    intro resp
    cases hc : resp 0 with
    | ok s =>
      cases skip with
      | true => simp [submitAux, hc]
      | false =>
        have hnd := confirmAux_no_sendCall s CONFIRM_RETRIES statusResp
        simp only [submitAux, hc, Bool.false_eq_true, if_false, confirm_transaction] at hnd ⊢
        simp [List.count_cons, hnd]
    | transportErr =>
      have := ih (fun i => resp (i + 1))
      simp only [submitAux, hc]
      simp [List.count_cons]
      omega

lemma simLoop_step_noUnits (resp : Nat → SimResponse) (fuel attempts : Nat)
    (tx : List Ix) (h : attempts < 4) (hc : resp 0 = .ok none none) :
    simLoop resp (fuel + 1) attempts tx =
      ((simLoop (fun i => resp (i + 1)) fuel attempts tx).1,
        (simLoop (fun i => resp (i + 1)) fuel attempts tx).2 + 1) := by
  have h2 : attempts < SIMULATION_RETRIES := h
  simp [simLoop, h2, hc]

lemma simLoop_step_execErr (resp : Nat → SimResponse) (fuel attempts : Nat)
    (tx : List Ix) (e : Unit) (u : Option Nat)
    (h : attempts < 4) (hc : resp 0 = .ok (some e) u) :
    simLoop resp (fuel + 1) attempts tx =
      ((simLoop (fun i => resp (i + 1)) fuel (attempts + 1) tx).1,
        (simLoop (fun i => resp (i + 1)) fuel (attempts + 1) tx).2 + 1) := by
  have h2 : attempts < SIMULATION_RETRIES := h
  simp [simLoop, h2, hc]

lemma simLoop_step_units (resp : Nat → SimResponse) (fuel attempts : Nat)
    (tx : List Ix) (u : Nat) (h : attempts < 4) (hc : resp 0 = .ok none (some u)) :
    simLoop resp (fuel + 1) attempts tx =
      (.okTx (Ix.cuBudget ((u % 2 ^ 32 + 1000) % 2 ^ 32) :: tx), 1) := by
  have h2 : attempts < SIMULATION_RETRIES := h
  simp [simLoop, h2, hc]

lemma simLoop_step_transport_last (resp : Nat → SimResponse) (fuel attempts : Nat)
    (tx : List Ix) (h : attempts < 4) (h2 : 4 ≤ attempts + 1)
    (hc : resp 0 = .transportErr) :
    simLoop resp (fuel + 1) attempts tx = (.errSim, 1) := by
  have h3 : attempts < SIMULATION_RETRIES := h
  have h4 : SIMULATION_RETRIES ≤ attempts + 1 := h2
  simp [simLoop, h3, h4, hc]

lemma simLoop_step_transport (resp : Nat → SimResponse) (fuel attempts : Nat)
    (tx : List Ix) (h : attempts < 4) (h2 : ¬ 4 ≤ attempts + 1)
    (hc : resp 0 = .transportErr) :
    simLoop resp (fuel + 1) attempts tx =
      ((simLoop (fun i => resp (i + 1)) fuel (attempts + 1) tx).1,
        (simLoop (fun i => resp (i + 1)) fuel (attempts + 1) tx).2 + 1) := by
  have h3 : attempts < SIMULATION_RETRIES := h
  have h4 : ¬ SIMULATION_RETRIES ≤ attempts + 1 := h2
  simp [simLoop, h3, h4, hc]

lemma simLoop_stop (resp : Nat → SimResponse) (fuel attempts : Nat)
    (tx : List Ix) (h : ¬ attempts < 4) :
    simLoop resp fuel attempts tx = (.okTx tx, 0) := by
  have h2 : ¬ attempts < SIMULATION_RETRIES := h
  cases fuel <;> simp [simLoop, h2]

lemma simLoop_fuel0 (resp : Nat → SimResponse) (attempts : Nat)
    (tx : List Ix) (h : attempts < 4) :
    simLoop resp 0 attempts tx = (.outOfFuel, 0) := by
  have h2 : attempts < SIMULATION_RETRIES := h
  simp [simLoop, h2]

lemma simLoop_calls_le :
    ∀ (fuel attempts : Nat) (resp : Nat → SimResponse) (tx : List Ix),
      (∀ i, isNoUnits (resp i) = false) →
      (simLoop resp fuel attempts tx).2 ≤ 4 - attempts ∧
        (4 - attempts ≤ fuel →
          (simLoop resp fuel attempts tx).1 ≠ .outOfFuel) := by
  intro fuel
  induction fuel with
  | zero =>
    intro attempts resp tx _
    by_cases h : attempts < 4
    · rw [simLoop_fuel0 resp attempts tx h]
      exact ⟨Nat.zero_le _, fun hf => absurd hf (by omega)⟩
    · rw [simLoop_stop resp 0 attempts tx h]
      exact ⟨Nat.zero_le _, fun _ hx => SimOutcome.noConfusion hx⟩
  | succ fuel ih =>
    intro attempts resp tx hnu
    by_cases h : attempts < 4
    · cases hc : resp 0 with
      | ok e u =>
        match e, u with
        | none, some u =>
          rw [simLoop_step_units resp fuel attempts tx u h hc]
          exact ⟨by omega, fun _ hx => SimOutcome.noConfusion hx⟩
        | none, none =>
          have := hnu 0
          rw [hc] at this
          simp [isNoUnits] at this
        | some e, u =>
          obtain ⟨ih1, ih2⟩ := ih (attempts + 1) (fun i => resp (i + 1)) tx
            (fun i => hnu (i + 1))
          rw [simLoop_step_execErr resp fuel attempts tx e u h hc]
          exact ⟨by simpa using by omega, fun hf => by simpa using ih2 (by omega)⟩
      | transportErr =>
        by_cases h2 : 4 ≤ attempts + 1
        · rw [simLoop_step_transport_last resp fuel attempts tx h h2 hc]
          exact ⟨by omega, fun _ hx => SimOutcome.noConfusion hx⟩
        · obtain ⟨ih1, ih2⟩ := ih (attempts + 1) (fun i => resp (i + 1)) tx
            (fun i => hnu (i + 1))
          rw [simLoop_step_transport resp fuel attempts tx h h2 hc]
          exact ⟨by simpa using by omega, fun hf => by simpa using ih2 (by omega)⟩
    · rw [simLoop_stop resp (fuel + 1) attempts tx h]
      exact ⟨Nat.zero_le _, fun _ hx => SimOutcome.noConfusion hx⟩

lemma simLoop_allFail :
    ∀ (fuel attempts : Nat) (resp : Nat → SimResponse) (tx : List Ix),
      attempts < 4 → 4 - attempts ≤ fuel →
      (∀ i, i < 4 - attempts → isSimFailure (resp i) = true) →
      simLoop resp fuel attempts tx =
        (if resp (3 - attempts) = .transportErr then ((.errSim : SimOutcome), 4 - attempts)
         else ((.okTx tx : SimOutcome), 4 - attempts)) := by
  intro fuel
  induction fuel with
  | zero =>
    intro attempts resp tx hlt hfuel _
    omega
  | succ fuel ih =>
    intro attempts resp tx hlt hfuel hfail
    have h0 : isSimFailure (resp 0) = true := hfail 0 (by omega)
    cases hc : resp 0 with
    | ok e u =>
      match e, u with
      | none, some u => rw [hc] at h0; simp [isSimFailure] at h0
      | none, none => rw [hc] at h0; simp [isSimFailure] at h0
      | some e, u =>
        by_cases hlast : attempts + 1 < 4
        · have hrec := ih (attempts + 1) (fun i => resp (i + 1)) tx hlast
            (by omega)
            (fun i hi => hfail (i + 1) (by omega))
          have hidx : (3 - (attempts + 1)) + 1 = 3 - attempts := by omega
          beta_reduce at hrec
          rw [hidx] at hrec
          rw [simLoop_step_execErr resp fuel attempts tx e u hlt hc, hrec]
          by_cases htr : resp (3 - attempts) = .transportErr
          · simp [htr]
            omega
          · simp [htr]
            omega
        · have ha : attempts = 3 := by omega
          subst ha
          have hstop : simLoop (fun i => resp (i + 1)) fuel 4 tx = (.okTx tx, 0) :=
            simLoop_stop _ _ _ _ (by omega)
          have htr : ¬ resp (3 - 3) = .transportErr := by
            simp only [Nat.sub_self]
            rw [hc]
            exact fun hx => SimResponse.noConfusion hx
          rw [simLoop_step_execErr resp fuel 3 tx e u hlt hc, hstop]
          rw [if_neg htr]
    | transportErr =>
      by_cases hlast : 4 ≤ attempts + 1
      · have ha : attempts = 3 := by omega
        subst ha
        have htr : resp (3 - 3) = .transportErr := by simpa using hc
        rw [simLoop_step_transport_last resp fuel 3 tx hlt hlast hc]
        rw [if_pos htr]
      · have hrec := ih (attempts + 1) (fun i => resp (i + 1)) tx (by omega)
          (by omega)
          (fun i hi => hfail (i + 1) (by omega))
        have hidx : (3 - (attempts + 1)) + 1 = 3 - attempts := by omega
        beta_reduce at hrec
        rw [hidx] at hrec
        rw [simLoop_step_transport resp fuel attempts tx hlt hlast hc, hrec]
        by_cases htr : resp (3 - attempts) = .transportErr
        · simp [htr]
          omega
        · simp [htr]
          omega

lemma simLoop_transport_then_units (u : Nat) :
    ∀ (k fuel attempts : Nat) (resp : Nat → SimResponse) (tx : List Ix),
      attempts + k < 4 → k + 1 ≤ fuel →
      (∀ i, i < k → resp i = .transportErr) → resp k = .ok none (some u) →
      simLoop resp fuel attempts tx =
        (.okTx (Ix.cuBudget ((u % 2 ^ 32 + 1000) % 2 ^ 32) :: tx), k + 1) := by
  intro k
  induction k with
  | zero =>
    intro fuel attempts resp tx hlt hfuel _ hk
    match fuel, hfuel with
    | fuel + 1, _ =>
      exact simLoop_step_units resp fuel attempts tx u (by omega) hk
  | succ k ih =>
    intro fuel attempts resp tx hlt hfuel hpre hk
    match fuel, hfuel with
    | fuel + 1, hfuel2 =>
      have h0 := hpre 0 (Nat.succ_pos k)
      have hrec := ih fuel (attempts + 1) (fun i => resp (i + 1)) tx
        (by omega) (Nat.lt_of_succ_lt_succ hfuel2)
        (fun i hi => hpre (i + 1) (Nat.succ_lt_succ hi)) hk
      rw [simLoop_step_transport resp fuel attempts tx (by omega) (by omega) h0, hrec]

/-! ## Helper lemmas for the search engine -/

/-- The all-zero digest is lexicographically `≤` any byte list of the
same length. -/
lemma lexLe_replicate_zero : ∀ (d : List Nat), lexLe (List.replicate d.length 0) d = true := by
  intro d
  induction d with
  | nil => simp [lexLe]
  | cons b bs ih =>
    simp only [List.length_cons, List.replicate_succ]
    by_cases hb : 0 < b
    · simp [lexLe, hb]
    · have hb0 : b = 0 := by omega
      subst hb0
      simp [lexLe, ih]

lemma lexLe_zeros32 (d : List Nat) (hd : d.length = 32) :
    lexLe (List.replicate 32 0) d = true := by
  rw [← hd]
  exact lexLe_replicate_zero d

/-- The slot always satisfies the difficulty bound, and so does the
payload of every pending (flag-set, lock-not-yet-acquired) worker. -/
def SlotInv (difficulty : List Nat) (s : SearchState) : Prop :=
  lexLe s.slot.1 difficulty = true ∧
    ∀ w ∈ s.workers, ∀ d n, w = WStatus.pending d n → lexLe d difficulty = true

/-- A worker only commits a slot write from the `pending` state, and
the write is exactly its recorded candidate. -/
lemma wstep_write (h : List Nat → List Nat) (ch ident diff : List Nat)
    (found : Bool) (w : WStatus) (d : List Nat) (n : Nat) :
    (wstep h ch ident diff found w).2.2 = some (d, n) → w = .pending d n := by
  cases w with
  | running nonce =>
    simp only [wstep]
    split
    · intro hx; cases hx
    · split
      · intro hx; cases hx
      · intro hx; cases hx
  | pending d2 n2 =>
    simp only [wstep]
    intro hx
    injection hx with hx2
    injection hx2 with hd hn
    rw [hd, hn]
  | done =>
    simp only [wstep]
    intro hx; cases hx

/-- A worker only becomes `pending` on a digest that passed the
difficulty comparison. -/
lemma wstep_pending_le (h : List Nat → List Nat) (ch ident diff : List Nat)
    (found : Bool) (w : WStatus) (d : List Nat) (n : Nat) :
    (wstep h ch ident diff found w).1 = .pending d n → lexLe d diff = true := by
  cases w with
  | running nonce =>
    simp only [wstep]
    split
    · intro hx; cases hx
    · split
      · rename_i hguard
        intro hx
        injection hx with hd hn
        rw [← hd]
        exact hguard
      · intro hx; cases hx
  | pending d2 n2 =>
    simp only [wstep]
    intro hx; cases hx
  | done =>
    simp only [wstep]
    intro hx; cases hx

lemma stepWrite_le (h : List Nat → List Nat) (ch ident diff : List Nat)
    (s : SearchState) (i : Nat) (p : List Nat × Nat)
    (hinv : SlotInv diff s) :
    stepWrite h ch ident diff s i = some p → lexLe p.1 diff = true := by
  unfold stepWrite
  cases hg : s.workers.get? i with
  | none => intro hx; cases hx
  | some w =>
    intro hx
    have hwp := wstep_write h ch ident diff s.found w p.1 p.2 hx
    exact hinv.2 w (List.get?_mem hg) p.1 p.2 hwp

lemma stepWorker_inv (h : List Nat → List Nat) (ch ident diff : List Nat)
    (s : SearchState) (i : Nat) (hinv : SlotInv diff s) :
    SlotInv diff (stepWorker h ch ident diff s i) := by
  obtain ⟨h1, h2⟩ := hinv
  cases hg : s.workers.get? i with
  | none => simp only [stepWorker, hg]; exact ⟨h1, h2⟩
  | some w =>
    simp only [stepWorker, hg]
    constructor
    · cases hwr : (wstep h ch ident diff s.found w).2.2 with
      | none => simpa [hwr] using h1
      | some p =>
        have hwp := wstep_write h ch ident diff s.found w p.1 p.2 hwr
        simpa [hwr] using h2 w (List.get?_mem hg) p.1 p.2 hwp
    · intro w2 hw2 d n hpend
      rcases List.mem_or_eq_of_mem_set hw2 with hold | hnew
      · exact h2 w2 hold d n hpend
      · rw [hnew] at hpend
        exact wstep_pending_le h ch ident diff s.found w d n hpend

lemma runSched_inv (h : List Nat → List Nat) (ch ident diff : List Nat) :
    ∀ (sched : List Nat) (s : SearchState), SlotInv diff s →
      SlotInv diff (runSched h ch ident diff s sched) := by
  intro sched
  induction sched with
  | nil => intro s hs; exact hs
  | cons i rest ih =>
    intro s hs
    exact ih (stepWorker h ch ident diff s i) (stepWorker_inv h ch ident diff s i hs)

lemma initState_inv (diff : List Nat) (threads : Nat) (hd : diff.length = 32) :
    SlotInv diff (initState threads) := by
  constructor
  · exact lexLe_zeros32 diff hd
  · intro w hw d n hpend
    simp only [initState, List.mem_map] at hw
    obtain ⟨j, _, hj⟩ := hw
    rw [← hj] at hpend
    cases hpend

lemma stepWorker_slot (h : List Nat → List Nat) (ch ident diff : List Nat)
    (s : SearchState) (i : Nat) :
    (stepWorker h ch ident diff s i).slot =
      (stepWrite h ch ident diff s i).getD s.slot := by
  cases hg : s.workers.get? i with
  | none => unfold stepWorker stepWrite; rw [hg]; rfl
  | some w => unfold stepWorker stepWrite; rw [hg]

/-- A fold that keeps only the last element. -/
lemma foldl_overwrite {α : Type} : ∀ (l : List α) (init : α),
    l.foldl (fun _ w => w) init = l.getLastD init := by
  intro l
  induction l with
  | nil => intro init; rfl
  | cons a l ih =>
    intro init
    simp only [List.foldl_cons]
    rw [ih a, List.getLastD_cons]

/-- The slot after a run is the fold of the committed writes: each
lock acquisition overwrites the previous content. -/
lemma runSched_slot (h : List Nat → List Nat) (ch ident diff : List Nat) :
    ∀ (sched : List Nat) (s : SearchState),
      (runSched h ch ident diff s sched).slot =
        (writesOf h ch ident diff s sched).foldl (fun _ w => w) s.slot := by
  intro sched
  induction sched with
  | nil => intro s; rfl
  | cons i rest ih =>
    intro s
    simp only [runSched, writesOf]
    rw [ih (stepWorker h ch ident diff s i)]
    cases hwr : stepWrite h ch ident diff s i with
    | none => simp [stepWorker_slot, hwr]
    | some p => simp [stepWorker_slot, hwr]

lemma writesOf_le (h : List Nat → List Nat) (ch ident diff : List Nat) :
    ∀ (sched : List Nat) (s : SearchState), SlotInv diff s →
      ∀ p ∈ writesOf h ch ident diff s sched, lexLe p.1 diff = true := by
  intro sched
  induction sched with
  | nil => intro s _ p hp; cases hp
  | cons i rest ih =>
    intro s hs p hp
    simp only [writesOf, List.mem_append] at hp
    rcases hp with hp | hp
    · cases hwr : stepWrite h ch ident diff s i with
      | none => rw [hwr] at hp; cases hp
      | some q =>
        rw [hwr] at hp
        simp only [Option.toList_some, List.mem_singleton] at hp
        rw [hp]
        exact stepWrite_le h ch ident diff s i q hs hwr
    · exact ih (stepWorker h ch ident diff s i)
        (stepWorker_inv h ch ident diff s i hs) p hp

/-- With no workers, every step is a no-op. -/
lemma runSched_no_workers (h : List Nat → List Nat) (ch ident diff : List Nat) :
    ∀ (sched : List Nat) (s : SearchState), s.workers = [] →
      runSched h ch ident diff s sched = s := by
  intro sched
  induction sched with
  | nil => intro s _; rfl
  | cons i rest ih =>
    intro s hw
    have hstep : stepWorker h ch ident diff s i = s := by
      simp [stepWorker, hw]
    simp only [runSched, hstep]
    exact ih s hw

/-! ## Lexicographic byte order versus big-endian integer order -/

lemma beNat_foldl_acc : ∀ (bs : List Nat) (acc : Nat),
    bs.foldl (fun acc b => acc * 256 + b) acc = acc * 256 ^ bs.length + beNat bs := by
  intro bs
  induction bs with
  | nil => intro acc; simp [beNat]
  | cons x l ih =>
    intro acc
    have hx : beNat (x :: l) = x * 256 ^ l.length + beNat l := by
      show List.foldl _ 0 (x :: l) = _
      simp only [List.foldl_cons]
      simpa using ih (0 * 256 + x)
    simp only [List.foldl_cons]
    rw [ih (acc * 256 + x), hx]
    simp only [List.length_cons, pow_succ]
    ring

lemma beNat_cons (x : Nat) (l : List Nat) :
    beNat (x :: l) = x * 256 ^ l.length + beNat l := by
  show List.foldl _ 0 (x :: l) = _
  simp only [List.foldl_cons]
  simpa using beNat_foldl_acc l (0 * 256 + x)

lemma beNat_lt_of_bound : ∀ (bs : List Nat), (∀ x ∈ bs, x < 256) →
    beNat bs < 256 ^ bs.length := by
  intro bs
  induction bs with
  | nil => intro _; simp [beNat]
  | cons b l ih =>
    intro hb
    have hbb : b < 256 := hb b (by simp)
    have hl := ih (fun z hz => hb z (by simp [hz]))
    rw [beNat_cons]
    calc b * 256 ^ l.length + beNat l < b * 256 ^ l.length + 256 ^ l.length := by omega
      _ = (b + 1) * 256 ^ l.length := by ring
      _ ≤ 256 * 256 ^ l.length := Nat.mul_le_mul_right _ (by omega)
      _ = 256 ^ (b :: l).length := by simp [pow_succ]; ring

/-- On byte lists of equal length, the lexicographic comparison agrees
with comparison of the big-endian unsigned integer values. -/
lemma lexLe_iff_beNat :
    ∀ (a b : List Nat), a.length = b.length →
      (∀ x ∈ a, x < 256) → (∀ x ∈ b, x < 256) →
      (lexLe a b = true ↔ beNat a ≤ beNat b) := by
  intro a
  induction a with
  | nil =>
    intro b hlen _ _
    cases b with
    | nil => simp [lexLe, beNat]
    | cons y ys => simp at hlen
  | cons x xs ih =>
    intro b hlen ha hb
    cases b with
    | nil => simp at hlen
    | cons y ys =>
      have hlen2 : xs.length = ys.length := by simpa using hlen
      have haxs : ∀ z ∈ xs, z < 256 := fun z hz => ha z (by simp [hz])
      have hbys : ∀ z ∈ ys, z < 256 := fun z hz => hb z (by simp [hz])
      have hxs := beNat_lt_of_bound xs haxs
      have hys := beNat_lt_of_bound ys hbys
      rw [hlen2] at hxs
      rw [beNat_cons, beNat_cons, hlen2]
      by_cases h1 : x < y
      · have hlex : lexLe (x :: xs) (y :: ys) = true := by simp [lexLe, h1]
        rw [hlex]
        simp only [true_iff]
        apply le_of_lt
        calc x * 256 ^ ys.length + beNat xs
            < x * 256 ^ ys.length + 256 ^ ys.length := by omega
          _ = (x + 1) * 256 ^ ys.length := by ring
          _ ≤ y * 256 ^ ys.length := Nat.mul_le_mul_right _ h1
          _ ≤ y * 256 ^ ys.length + beNat ys := Nat.le_add_right _ _
      · by_cases h2 : y < x
        · have hlex : lexLe (x :: xs) (y :: ys) = false := by simp [lexLe, h1, h2]
          rw [hlex]
          simp only [Bool.false_eq_true, false_iff, not_le]
          calc y * 256 ^ ys.length + beNat ys
              < y * 256 ^ ys.length + 256 ^ ys.length := by omega
            _ = (y + 1) * 256 ^ ys.length := by ring
            _ ≤ x * 256 ^ ys.length := Nat.mul_le_mul_right _ h2
            _ ≤ x * 256 ^ ys.length + beNat xs := Nat.le_add_right _ _
        · have hxy : x = y := by omega
          subst hxy
          have hlex : lexLe (x :: xs) (x :: ys) = lexLe xs ys := by
            simp [lexLe]
          rw [hlex, ih ys hlen2 haxs hbys]
          omega

/-! ## Worker start offsets and loop-step shape -/

/-- Distinct workers get distinct start offsets: the stride
`⌊u64::MAX / threads⌋` is positive and no product saturates. -/
lemma startNonce_inj (threads i j : Nat) (hth : threads ≤ U64MAX)
    (hij : i < j) (hj : j < threads) :
    startNonce threads i ≠ startNonce threads j := by
  have hpos : 0 < threads := lt_of_le_of_lt (Nat.zero_le i) (lt_trans hij hj)
  have hstride : 1 ≤ U64MAX / threads := (Nat.one_le_div_iff hpos).2 hth
  have hmul : ∀ k, k < threads → (U64MAX / threads) * k ≤ U64MAX := by
    intro k hk
    calc (U64MAX / threads) * k ≤ (U64MAX / threads) * threads :=
          Nat.mul_le_mul_left _ (le_of_lt hk)
      _ ≤ U64MAX := Nat.div_mul_le_self _ _
  unfold startNonce saturating_mul saturating_div
  rw [min_eq_left (hmul i (lt_trans hij hj)), min_eq_left (hmul j hj)]
  intro heq
  have := Nat.eq_of_mul_eq_mul_left (show 0 < U64MAX / threads by omega) heq
  omega

/-- Worker `i` starts in the `running` state at its assigned offset. -/
lemma initState_worker (threads i : Nat) (hi : i < threads) :
    (initState threads).workers.get? i = some (.running (startNonce threads i)) := by
  simp only [initState, List.get?_eq_getElem?, List.getElem?_map,
    List.getElem?_range hi]
  rfl

/-- A running worker whose nonce does not qualify (and which does not
stop on the found-flag) advances its nonce by exactly 1 (wrapping). -/
lemma wstep_running_advance (h : List Nat → List Nat) (ch ident diff : List Nat)
    (found : Bool) (nonce : Nat)
    (hflag : ¬ (nonce % 10000 == 0 && found) = true)
    (hfail : lexLe (h (hashInput ch ident nonce)) diff = false) :
    wstep h ch ident diff found (.running nonce) =
      (.running ((nonce + 1) % M64), found, none) := by
  simp only [wstep]
  rw [if_neg hflag, if_neg (by simp [hfail])]

/-- A running worker whose digest qualifies records exactly the digest
of `challenge ∥ identity ∥ nonce.to_le_bytes()` and sets the flag. -/
lemma wstep_running_qualify (h : List Nat → List Nat) (ch ident diff : List Nat)
    (found : Bool) (nonce : Nat)
    (hflag : ¬ (nonce % 10000 == 0 && found) = true)
    (hqual : lexLe (h (hashInput ch ident nonce)) diff = true) :
    wstep h ch ident diff found (.running nonce) =
      (.pending (h (hashInput ch ident nonce)) nonce, true, none) := by
  simp only [wstep]
  rw [if_neg hflag, if_pos hqual]

/-- A running worker stops without writing when it observes the flag
at a `nonce % 10_000 == 0` check. -/
lemma wstep_running_stop (h : List Nat → List Nat) (ch ident diff : List Nat)
    (found : Bool) (nonce : Nat)
    (hflag : (nonce % 10000 == 0 && found) = true) :
    wstep h ch ident diff found (.running nonce) = (.done, found, none) := by
  simp only [wstep]
  rw [if_pos hflag]

/-! ## Claim theorems -/

/-- C1: for every hash function, challenge, identity, difficulty,
worker count and schedule, `find_next_hash_par` returns a value only in
a state where every worker has terminated (the join-all), and the
returned pair's digest satisfies `digest ≤ difficulty`
lexicographically. -/
theorem c1_parallel_search_joins_and_meets_bound
    (h : List Nat → List Nat) (challenge ident difficulty : List Nat)
    (threads : Nat) (sched : List Nat) (d : List Nat) (n : Nat)
    (hd : difficulty.length = 32)
    (hr : find_next_hash_par h challenge ident difficulty threads sched = some (d, n)) :
    allDone (runSched h challenge ident difficulty (initState threads) sched) = true ∧
      lexLe d difficulty = true := by
  have hinv := runSched_inv h challenge ident difficulty sched (initState threads)
    (initState_inv difficulty threads hd)
  simp only [find_next_hash_par] at hr
  by_cases hdone :
      allDone (runSched h challenge ident difficulty (initState threads) sched) = true
  · rw [if_pos hdone] at hr
    injection hr with hr2
    refine ⟨hdone, ?_⟩
    have hb := hinv.1
    rw [hr2] at hb
    simpa using hb
  · rw [if_neg hdone] at hr
    cases hr

/-- C1 witness: a concrete one-worker run that terminates and returns
a digest below the difficulty. -/
theorem c1_witness :
    allDone (runSched (fun _ => List.replicate 32 0) [] [] (List.replicate 32 255)
      (initState 1) [0, 0]) = true ∧
      lexLe (List.replicate 32 0) (List.replicate 32 255) = true :=
  c1_parallel_search_joins_and_meets_bound (fun _ => List.replicate 32 0) [] []
    (List.replicate 32 255) 1 [0, 0] (List.replicate 32 0) 0 (by decide) (by decide)

/-- C2 (amended): within a round, every qualifying worker overwrites
the shared result slot under the lock, so the pair retained at the end
of a schedule is the **last** committed write (not the first); exactly
one pair is retained and every committed write — in particular the
retained one — satisfies the difficulty bound. -/
theorem c2_last_lock_acquirer_wins
    (h : List Nat → List Nat) (challenge ident difficulty : List Nat)
    (threads : Nat) (sched : List Nat) (hd : difficulty.length = 32) :
    (runSched h challenge ident difficulty (initState threads) sched).slot =
      (writesOf h challenge ident difficulty (initState threads) sched).getLastD
        (List.replicate 32 0, 0) ∧
      ∀ p ∈ writesOf h challenge ident difficulty (initState threads) sched,
        lexLe p.1 difficulty = true := by
  constructor
  · rw [runSched_slot, foldl_overwrite]
    rfl
  · exact writesOf_le h challenge ident difficulty sched (initState threads)
      (initState_inv difficulty threads hd)

/-- C2 witness: a two-worker schedule in which both workers commit;
the slot holds the last write and both writes meet the bound. -/
theorem c2_witness :
    (runSched (fun _ => List.replicate 32 1) [] [] (List.replicate 32 255)
        (initState 2) [0, 1, 0, 1]).slot =
      (writesOf (fun _ => List.replicate 32 1) [] [] (List.replicate 32 255)
        (initState 2) [0, 1, 0, 1]).getLastD (List.replicate 32 0, 0) ∧
      ∀ p ∈ writesOf (fun _ => List.replicate 32 1) [] [] (List.replicate 32 255)
        (initState 2) [0, 1, 0, 1], lexLe p.1 (List.replicate 32 255) = true :=
  c2_last_lock_acquirer_wins (fun _ => List.replicate 32 1) [] []
    (List.replicate 32 255) 2 [0, 1, 0, 1] (by decide)

/-- C7: worker `i` of `find_next_hash_par` starts running at nonce
`u64::MAX.saturating_div(threads).saturating_mul(i)`; distinct workers
have distinct (disjoint) starting offsets; a non-qualifying iteration
advances the nonce by exactly 1 (wrapping at `2^64`); a qualifying
iteration records exactly the digest of
`challenge ∥ identity ∥ nonce_le_bytes`; and the lexicographic byte
comparison used agrees with big-endian unsigned integer order on
equal-length byte lists. -/
theorem c7_worker_layout_and_comparison :
    (∀ threads i : Nat, i < threads →
      (initState threads).workers.get? i =
        some (.running (saturating_mul (saturating_div U64MAX threads) i))) ∧
    (∀ threads i j : Nat, threads ≤ U64MAX → i < j → j < threads →
      startNonce threads i ≠ startNonce threads j) ∧
    (∀ (h : List Nat → List Nat) (ch ident diff : List Nat) (found : Bool) (nonce : Nat),
      ¬ (nonce % 10000 == 0 && found) = true →
      lexLe (h (ch ++ ident ++ leBytes8 nonce)) diff = false →
      wstep h ch ident diff found (.running nonce) =
        (.running ((nonce + 1) % M64), found, none)) ∧
    (∀ (h : List Nat → List Nat) (ch ident diff : List Nat) (found : Bool) (nonce : Nat),
      ¬ (nonce % 10000 == 0 && found) = true →
      lexLe (h (ch ++ ident ++ leBytes8 nonce)) diff = true →
      wstep h ch ident diff found (.running nonce) =
        (.pending (h (ch ++ ident ++ leBytes8 nonce)) nonce, true, none)) ∧
    (∀ a b : List Nat, a.length = b.length →
      (∀ x ∈ a, x < 256) → (∀ x ∈ b, x < 256) →
      (lexLe a b = true ↔ beNat a ≤ beNat b)) :=
  ⟨fun threads i hi => initState_worker threads i hi,
   startNonce_inj,
   fun h ch ident diff found nonce hflag hfail =>
     wstep_running_advance h ch ident diff found nonce hflag hfail,
   fun h ch ident diff found nonce hflag hqual =>
     wstep_running_qualify h ch ident diff found nonce hflag hqual,
   lexLe_iff_beNat⟩

/-- C7 witness: concrete instances of each conjunct. -/
theorem c7_witness :
    (initState 3).workers.get? 1 =
      some (.running (saturating_mul (saturating_div U64MAX 3) 1)) ∧
    startNonce 3 1 ≠ startNonce 3 2 ∧
    wstep (fun _ => List.replicate 32 1) [] [] (List.replicate 32 0) false (.running 5) =
      (.running ((5 + 1) % M64), false, none) ∧
    wstep (fun _ => List.replicate 32 1) [] [] (List.replicate 32 255) false (.running 5) =
      (.pending ((fun _ => List.replicate 32 1) ([] ++ [] ++ leBytes8 5)) 5, true, none) ∧
    (lexLe [1, 2] [1, 3] = true ↔ beNat [1, 2] ≤ beNat [1, 3]) :=
  ⟨c7_worker_layout_and_comparison.1 3 1 (by decide),
   c7_worker_layout_and_comparison.2.1 3 1 2 (by decide) (by decide) (by decide),
   c7_worker_layout_and_comparison.2.2.1 (fun _ => List.replicate 32 1) [] []
     (List.replicate 32 0) false 5 (by decide) (by decide),
   c7_worker_layout_and_comparison.2.2.2.1 (fun _ => List.replicate 32 1) [] []
     (List.replicate 32 255) false 5 (by decide) (by decide),
   c7_worker_layout_and_comparison.2.2.2.2 [1, 2] [1, 3] (by decide)
     (by simp) (by simp)⟩

set_option maxRecDepth 1000000 in
set_option maxHeartbeats 4000000 in
/-- C2 counterexample: with the real Keccak-256 hash, an all-ones
difficulty, two workers and the schedule `[0, 1, 0, 1]`, both workers
qualify; worker 0 acquires the slot lock first and writes `(digest₀,
0)`, then worker 1 acquires it and overwrites.  The retained pair is
worker 1's — the first lock acquirer's write is *not* what is kept, and
the later write is *not* discarded. -/
theorem c2_counterexample :
    writesOf keccak256 (List.replicate 32 0) (List.replicate 32 0) (List.replicate 32 255)
        (initState 2) [0, 1, 0, 1] =
      [(keccak256 (hashInput (List.replicate 32 0) (List.replicate 32 0) 0), 0),
       (keccak256 (hashInput (List.replicate 32 0) (List.replicate 32 0) 9223372036854775807),
        9223372036854775807)] ∧
    (runSched keccak256 (List.replicate 32 0) (List.replicate 32 0) (List.replicate 32 255)
        (initState 2) [0, 1, 0, 1]).slot =
      (keccak256 (hashInput (List.replicate 32 0) (List.replicate 32 0) 9223372036854775807),
       9223372036854775807) ∧
    (runSched keccak256 (List.replicate 32 0) (List.replicate 32 0) (List.replicate 32 255)
        (initState 2) [0, 1, 0, 1]).slot ≠
      (keccak256 (hashInput (List.replicate 32 0) (List.replicate 32 0) 0), 0) :=
  ⟨by decide, by decide, by decide⟩

set_option maxRecDepth 1000000 in
set_option maxHeartbeats 4000000 in
/-- C10: with `worker_count = 0` the search spawns no workers and, for
every hash function and schedule, returns the initial placeholder pair
(the all-zero 32-byte digest, nonce 0); the all-zero digest is
numerically `≤` every 32-byte difficulty; yet the placeholder digest is
not the Keccak-256 digest of `(challenge, identity, 0)` (checked at the
all-zero challenge and identity), so the returned value is not a
genuine candidate. -/
theorem c10_zero_workers_placeholder :
    (∀ (h : List Nat → List Nat) (challenge ident difficulty : List Nat) (sched : List Nat),
      find_next_hash_par h challenge ident difficulty 0 sched =
        some (List.replicate 32 0, 0)) ∧
    (initState 0).workers = [] ∧
    (∀ difficulty : List Nat, difficulty.length = 32 →
      lexLe (List.replicate 32 0) difficulty = true) ∧
    keccak256 (hashInput (List.replicate 32 0) (List.replicate 32 0) 0) ≠
      List.replicate 32 0 := by
  refine ⟨?_, rfl, lexLe_zeros32, by decide⟩
  intro h ch ident diff sched
  have hw : (initState 0).workers = [] := rfl
  have hrun := runSched_no_workers h ch ident diff sched (initState 0) hw
  simp only [find_next_hash_par, hrun]
  rfl

/-- C10 witness: concrete instances of the quantified conjuncts. -/
theorem c10_witness :
    find_next_hash_par keccak256 (List.replicate 32 0) (List.replicate 32 0)
        (List.replicate 32 7) 0 [0, 1, 2] = some (List.replicate 32 0, 0) ∧
    lexLe (List.replicate 32 0) (List.replicate 32 7) = true :=
  ⟨c10_zero_workers_placeholder.1 keccak256 (List.replicate 32 0) (List.replicate 32 0)
     (List.replicate 32 7) [0, 1, 2],
   c10_zero_workers_placeholder.2.2.1 (List.replicate 32 7) (by decide)⟩

/-- C3 (amended): if simulation is enabled and every attempt fails,
then after 4 attempts: when the 4th failing attempt is a *transport*
error, `send_and_confirm` returns the SimulationFailed error and the
transaction is never submitted to the send stage; but when the 4th
failing attempt is a *reported execution* error, the simulate loop
exits returning success without modifying the transaction, and the
transaction proceeds to the send stage. -/
theorem c3_simulation_failure_exhaustion
    (env : SacEnv) (ixs : List Ix) (skip_confirm : Bool) (fuel : Nat)
    (hbal : 0 < env.balance) (hfuel : 4 ≤ fuel)
    (hfail : ∀ i, i < 4 → isSimFailure (env.simResp i) = true) :
    (env.simResp 3 = .transportErr →
      send_and_confirm env ixs true skip_confirm fuel =
        some (.error .simulationFailed,
          [Ev.balanceCall, Ev.blockhashCall] ++ List.replicate 4 Ev.simCall)) ∧
    (env.simResp 3 ≠ .transportErr →
      send_and_confirm env ixs true skip_confirm fuel =
        some ((submit_transaction env.sendResp env.statusResp skip_confirm).1,
          [Ev.balanceCall, Ev.blockhashCall] ++ List.replicate 4 Ev.simCall ++
            (submit_transaction env.sendResp env.statusResp skip_confirm).2)) := by
  have hnb : ¬ env.balance ≤ 0 := by omega
  have hsim := simLoop_allFail fuel 0 env.simResp ixs (by omega) (by omega)
    (by simpa using hfail)
  norm_num at hsim
  constructor
  · intro htr
    rw [if_pos htr] at hsim
    simp [send_and_confirm, hnb, hsim]
  · intro htr
    rw [if_neg htr] at hsim
    simp [send_and_confirm, hnb, hsim]

/-- C3 counterexample: with a positive balance and a simulation
response stream that *always* reports an execution error (a failing
attempt every time), after 4 attempts `send_and_confirm` does **not**
return SimulationFailed: the simulate loop falls through with success
and the transaction is submitted to the send stage (a send call
appears in the trace, and the overall result is the send's). -/
theorem c3_counterexample :
    send_and_confirm ⟨1, fun _ => .ok (some ()) none, fun _ => .ok 9, fun _ => .ok none⟩
        [Ix.other 5] true true 10 =
      some (.ok 9, [Ev.balanceCall, Ev.blockhashCall, Ev.simCall, Ev.simCall, Ev.simCall,
        Ev.simCall, Ev.sendCall]) := by
  rfl

/-- C4: if the balance reported by the ledger is not strictly positive,
`send_and_confirm` returns the insufficient-funds error immediately,
and the trace shows no simulate call and no send call — only the
balance query. -/
theorem c4_balance_guard (env : SacEnv) (ixs : List Ix)
    (dynamic_cus skip_confirm : Bool) (fuel : Nat) (hb : env.balance = 0) :
    send_and_confirm env ixs dynamic_cus skip_confirm fuel =
      some (.error .insufficientFunds, [Ev.balanceCall]) := by
  simp [send_and_confirm, hb]

/-- C4 witness: a zero-balance environment fails immediately. -/
theorem c4_witness :
    send_and_confirm ⟨0, fun _ => .ok none none, fun _ => .ok 1, fun _ => .ok none⟩
        [Ix.other 0] true false 10 =
      some (.error .insufficientFunds, [Ev.balanceCall]) :=
  c4_balance_guard _ _ _ _ _ rfl

/-- C5: in the send stage, if the transport fails exactly `k < 4` times
and then succeeds with signature `s`, `submit_transaction` returns the
successful send's result `Ok s` after `k` failed attempts each followed
by a 2-second backoff sleep; if the transport always fails, it returns
the SendFailed error after exactly 4 send attempts, each followed by
the 2-second backoff. -/
theorem c5_send_retry_bound :
    (∀ (sendResp : Nat → SendResponse) (statusResp : Nat → StatusResponse) (k s : Nat),
      k < 4 → (∀ i, i < k → sendResp i = .transportErr) → sendResp k = .ok s →
      submit_transaction sendResp statusResp true = (.ok s, sendEvs k ++ [Ev.sendCall])) ∧
    (∀ (sendResp : Nat → SendResponse) (statusResp : Nat → StatusResponse) (skip : Bool),
      (∀ i, i < 4 → sendResp i = .transportErr) →
      submit_transaction sendResp statusResp skip = (.error .sendFailed, sendEvs 4)) :=
  ⟨fun sendResp statusResp k s hk hpre hsucc =>
     submitAux_ok_skip statusResp s k GATEWAY_RETRIES sendResp hk hpre hsucc,
   fun sendResp statusResp skip hall =>
     submitAux_allFail statusResp skip GATEWAY_RETRIES sendResp hall⟩

/-- C5 witness: two transport failures then success, and an
always-failing transport. -/
theorem c5_witness :
    submit_transaction (fun i => if i < 2 then .transportErr else .ok 42)
        (fun _ => .ok none) true = (.ok 42, sendEvs 2 ++ [Ev.sendCall]) ∧
    submit_transaction (fun _ => .transportErr) (fun _ => .ok none) false =
      (.error .sendFailed, sendEvs 4) :=
  ⟨c5_send_retry_bound.1 (fun i => if i < 2 then .transportErr else .ok 42)
     (fun _ => .ok none) 2 42 (by decide) (by decide) (by decide),
   c5_send_retry_bound.2 (fun _ => .transportErr) (fun _ => .ok none) false (by decide)⟩

/-- C6: the confirm stage polls at 2-second intervals; a response of
`Confirmed` or `Finalized` at poll `a < 4` (after `a` polls whose
status was absent or weaker) returns success on poll `a + 1`; four
polls with absent-or-weaker status return the ConfirmationTimedOut
error.  In particular "processed" for 3 polls then "confirmed" reaches
success on the 4th poll (see the witness). -/
theorem c6_confirm_polling :
    (∀ (resp : Nat → StatusResponse) (sig a : Nat), a < 4 →
      (∀ i, i < a → nonTerminal (resp i) = true) →
      isConfirmedStatus (resp a) = true →
      confirm_transaction resp sig = (.ok sig, pollEvs (a + 1))) ∧
    (∀ (resp : Nat → StatusResponse) (sig : Nat),
      (∀ i, i < 4 → nonTerminal (resp i) = true) →
      confirm_transaction resp sig = (.error .confirmTimeout, pollEvs 4)) :=
  ⟨fun resp sig a ha hpre hs => confirmAux_ok sig a CONFIRM_RETRIES resp ha hpre hs,
   fun resp sig hall => confirmAux_timeout sig CONFIRM_RETRIES resp hall⟩

/-- C6 witness: "processed" for 3 polls then "confirmed" succeeds on
the 4th poll; never-confirmed times out after 4 polls. -/
theorem c6_witness :
    confirm_transaction
        (fun i => if i < 3 then .ok (some (some .processed)) else .ok (some (some .confirmed)))
        7 = (.ok 7, pollEvs 4) ∧
    confirm_transaction (fun _ => .ok (some (some .processed))) 7 =
      (.error .confirmTimeout, pollEvs 4) :=
  ⟨c6_confirm_polling.1
     (fun i => if i < 3 then .ok (some (some .processed)) else .ok (some (some .confirmed)))
     7 3 (by decide) (by decide) (by decide),
   c6_confirm_polling.2 (fun _ => .ok (some (some .processed))) 7 (by decide)⟩

/-- C8 (amended): the simulate and send stages recover a transport
error locally by retrying while their 4-attempt bounds remain; the
confirm stage does **not** — a transport error on the status query is
propagated immediately (after any number `a < 4` of non-terminal
polls), aborting `confirm_transaction` with the transport error rather
than consuming a retry. -/
theorem c8_transport_error_handling :
    (∀ (resp : Nat → SimResponse) (fuel : Nat) (tx : List Ix) (u k : Nat),
      k < 4 → k + 1 ≤ fuel → (∀ i, i < k → resp i = .transportErr) →
      resp k = .ok none (some u) →
      simLoop resp fuel 0 tx =
        (.okTx (Ix.cuBudget ((u % 2 ^ 32 + 1000) % 2 ^ 32) :: tx), k + 1)) ∧
    (∀ (sendResp : Nat → SendResponse) (statusResp : Nat → StatusResponse) (k s : Nat),
      k < 4 → (∀ i, i < k → sendResp i = .transportErr) → sendResp k = .ok s →
      submit_transaction sendResp statusResp true = (.ok s, sendEvs k ++ [Ev.sendCall])) ∧
    (∀ (resp : Nat → StatusResponse) (sig a : Nat), a < 4 →
      (∀ i, i < a → nonTerminal (resp i) = true) → resp a = .transportErr →
      confirm_transaction resp sig = (.error .transport, pollEvs (a + 1))) :=
  ⟨fun resp fuel tx u k hk hf hpre hsucc =>
     simLoop_transport_then_units u k fuel 0 resp tx (by omega) hf hpre hsucc,
   fun sendResp statusResp k s hk hpre hsucc =>
     submitAux_ok_skip statusResp s k GATEWAY_RETRIES sendResp hk hpre hsucc,
   fun resp sig a ha hpre htr => confirmAux_transport sig a CONFIRM_RETRIES resp ha hpre htr⟩

/-- C8 counterexample: a transport error on the very first status poll
(with the full 4-attempt budget remaining) aborts the confirm stage
immediately with the transport error — it is not retried. -/
theorem c8_counterexample :
    confirm_transaction (fun _ => .transportErr) 7 =
      (.error .transport, [Ev.sleep2, Ev.statusCall]) := by
  rfl

/-- C8 witness: one transport failure recovered in simulate and in
send; a transport error after two non-terminal polls aborting
confirm. -/
theorem c8_witness :
    simLoop (fun i => if i < 1 then .transportErr else .ok none (some 500)) 10 0 [] =
      (.okTx [Ix.cuBudget 1500], 2) ∧
    submit_transaction (fun i => if i < 1 then .transportErr else .ok 8)
        (fun _ => .ok none) true = (.ok 8, sendEvs 1 ++ [Ev.sendCall]) ∧
    confirm_transaction (fun i => if i < 2 then .ok none else .transportErr) 7 =
      (.error .transport, pollEvs 3) :=
  ⟨c8_transport_error_handling.1
     (fun i => if i < 1 then .transportErr else .ok none (some 500)) 10 [] 500 1
     (by decide) (by decide) (by decide) (by decide),
   c8_transport_error_handling.2.1 (fun i => if i < 1 then .transportErr else .ok 8)
     (fun _ => .ok none) 1 8 (by decide) (by decide) (by decide),
   c8_transport_error_handling.2.2 (fun i => if i < 2 then .ok none else .transportErr)
     7 2 (by decide) (by decide) (by decide)⟩

/-- C9 (amended): `submit_transaction` issues at most 4 send calls and
`confirm_transaction` at most 4 status queries, for every response
stream; `simulate_transaction` issues at most 4 simulation calls and
terminates within its attempt bound **provided** no response is a
success reporting no units-consumed figure — such a response does not
advance the attempt counter, so the loop re-issues simulation calls
without bound (see the counterexample). -/
theorem c9_stage_call_bounds :
    (∀ (sendResp : Nat → SendResponse) (statusResp : Nat → StatusResponse) (skip : Bool),
      List.count Ev.sendCall (submit_transaction sendResp statusResp skip).2 ≤ 4) ∧
    (∀ (resp : Nat → StatusResponse) (sig : Nat),
      List.count Ev.statusCall (confirm_transaction resp sig).2 ≤ 4) ∧
    (∀ (resp : Nat → SimResponse) (fuel : Nat) (tx : List Ix),
      (∀ i, isNoUnits (resp i) = false) →
      (simLoop resp fuel 0 tx).2 ≤ 4 ∧
        (4 ≤ fuel → (simLoop resp fuel 0 tx).1 ≠ .outOfFuel)) :=
  ⟨fun sendResp statusResp skip => submitAux_sendCall_le statusResp skip GATEWAY_RETRIES sendResp,
   fun resp sig => confirmAux_statusCall_le sig CONFIRM_RETRIES resp,
   fun resp fuel tx hnu => by simpa using simLoop_calls_le fuel 0 resp tx hnu⟩

/-- C9 counterexample: a stream of simulation successes that carry no
units-consumed figure keeps the loop running — after 5 iterations it
has issued 5 simulation calls (more than the claimed bound of 4) and
has still not returned. -/
theorem c9_counterexample :
    simLoop (fun _ => .ok none none) 5 0 [] = (.outOfFuel, 5) := by
  rfl

/-- C9 witness: concrete call-count bounds for each stage. -/
theorem c9_witness :
    List.count Ev.sendCall
        (submit_transaction (fun _ => .transportErr) (fun _ => .ok none) true).2 ≤ 4 ∧
    List.count Ev.statusCall (confirm_transaction (fun _ => .ok none) 3).2 ≤ 4 ∧
    ((simLoop (fun _ => .transportErr) 9 0 []).2 ≤ 4 ∧
      (4 ≤ 9 → (simLoop (fun _ => .transportErr) 9 0 []).1 ≠ .outOfFuel)) :=
  ⟨c9_stage_call_bounds.1 (fun _ => .transportErr) (fun _ => .ok none) true,
   c9_stage_call_bounds.2.1 (fun _ => .ok none) 3,
   c9_stage_call_bounds.2.2 (fun _ => .transportErr) 9 [] (fun _ => rfl)⟩

/-- C3 witness: three execution-error attempts then a transport error
on the 4th attempt yield the SimulationFailed error with no send
call. -/
theorem c3_witness :
    send_and_confirm ⟨2, fun i => if i < 3 then .ok (some ()) none else .transportErr,
        fun _ => .ok 9, fun _ => .ok none⟩ [Ix.other 1] true true 10 =
      some (.error .simulationFailed,
        [Ev.balanceCall, Ev.blockhashCall] ++ List.replicate 4 Ev.simCall) :=
  (c3_simulation_failure_exhaustion
    ⟨2, fun i => if i < 3 then .ok (some ()) none else .transportErr,
      fun _ => .ok 9, fun _ => .ok none⟩ [Ix.other 1] true 10
    (by decide) (by decide) (by decide)).1 (by decide)

end MineCli

